import Mathlib

/-!
Shallow embedding of `src/gribscan_harmonie/load.py` and proofs about its
orchestration logic: index-path computation, idempotent index building,
analysis-time range enumeration, and dataset concatenation choice.

Paths are modelled as strings with POSIX `pathlib` semantics for the few
operations the source uses (`.name`, `.parent`, `/`-join, `str(p)[1:]`).
Timestamps and durations are integers counting seconds since the Unix epoch,
with an explicit civil-calendar conversion for `Timestamp.isoformat()`.
The filesystem is modelled as an explicit state: the set of existing paths
plus logs of the index-generation calls, directory creations and JSON dumps
the code performs.  External collaborators (`gribscan.grib_magic`,
`xr.open_zarr`) are opaque function parameters.
-/

namespace GribscanHarmonie

/-- Python exception conditions raised by the embedded code paths. -/
inductive PyError where
  | valueError (msg : String)
  | attributeError (name : String)
  | indexError
  | notImplementedError
  | exception (msg : String)
  deriving DecidableEq, Repr

deriving instance DecidableEq for Except

@[simp] theorem except_bind_ok {ε α β : Type} (a : α) (f : α → Except ε β) :
    (Except.ok a >>= f) = f a := rfl

@[simp] theorem except_bind_error {ε α β : Type} (e : ε) (f : α → Except ε β) :
    ((Except.error e : Except ε α) >>= f) = Except.error e := rfl

@[simp] theorem except_pure_def {ε α : Type} (a : α) :
    (pure a : Except ε α) = Except.ok a := rfl

/-- Split a character list at every `/` (kernel-reducible counterpart of
`String.splitOn "/"`). -/
def splitSlashAux : List Char → List Char → List String
  | [], acc => [⟨acc.reverse⟩]
  | c :: cs, acc =>
    if c = '/' then ⟨acc.reverse⟩ :: splitSlashAux cs [] else splitSlashAux cs (c :: acc)

/-- `String.splitOn "/"` on the character-list representation. -/
def splitSlash (s : String) : List String :=
  splitSlashAux s.data []

/-- `sep.join(components)` / `String.intercalate`, kernel-reducible. -/
def joinComponents (sep : String) : List String → String
  | [] => ""
  | [x] => x
  | x :: xs => x ++ sep ++ joinComponents sep xs

/-- Python `s[1:]`: drop the first character. -/
def strDrop1 (s : String) : String :=
  ⟨s.data.drop 1⟩

/-- Does the string start with `/`? -/
def startsWithSlash (s : String) : Bool :=
  match s.data with
  | '/' :: _ => true
  | _ => false

/-- Does the string end with `/`? -/
def endsWithSlash (s : String) : Bool :=
  match s.data.getLast? with
  | some '/' => true
  | _ => false

/-- `pathlib.PurePosixPath(p).name`: the final path component. -/
def pathName (p : String) : String :=
  (splitSlash p).getLastD p

/-- `str(pathlib.PurePosixPath(p).parent)`: the path without its final
component; `.` when there is no directory part, `/` for top-level entries. -/
def pathParent (p : String) : String :=
  let parts := splitSlash p
  if parts.length ≤ 1 then "."
  else
    let front := parts.dropLast
    if front.all (fun c => c = "") then "/"
    else joinComponents "/" front

/-- `pathlib` `/` operator (an absolute right operand replaces the left). -/
def pathJoin (a b : String) : String :=
  if startsWithSlash b then b
  else if b = "" then a
  else if a = "" ∨ endsWithSlash a then a ++ b
  else a ++ "/" ++ b

/-- Observable filesystem state: which paths exist, plus logs of the external
`gribscan.write_index` invocations, `mkdir` calls and zarr-JSON dumps. -/
structure FSState where
  existing : List String
  idxWrites : List String
  mkdirs : List String
  jsonWrites : List (String × String)
  deriving DecidableEq, Repr

/-- The target index path computed by `_write_index`:
`fp_grib.parent / (fp_grib.name + ".index.json")`, re-rooted under
`fp_grib_indecies_root / str(fp_grib.parent)[1:]` when a root is given. -/
def _write_index_path (fp_grib : String) (fp_grib_indecies_root : Option String) : String :=
  let fn_index := pathName fp_grib ++ ".index.json"
  let fp_index_parent :=
    match fp_grib_indecies_root with
    | none => pathParent fp_grib
    | some root => pathJoin root (strDrop1 (pathParent fp_grib))
  pathJoin fp_index_parent fn_index

/-- `_write_index`: returns the index path; if it does not exist yet it makes
the parent directory and invokes the external index generator. -/
def _write_index (fp_grib : String) (fp_grib_indecies_root : Option String)
    (st : FSState) : String × FSState :=
  let fp_index := _write_index_path fp_grib fp_grib_indecies_root
  if fp_index ∈ st.existing then (fp_index, st)
  else
    (fp_index,
      { st with
        existing := st.existing ++ [fp_index]
        idxWrites := st.idxWrites ++ [fp_index]
        mkdirs := st.mkdirs ++ [pathParent fp_index] })

/-- C5: `ensure_index` is idempotent: when the target index file already
exists the call returns its path with the filesystem state untouched (no
index generation, no mkdir); consequently a second call with the same
arguments returns the same path and performs no write. -/
theorem ensure_index_idempotent (fp : String) (root : Option String) (st : FSState) :
    (_write_index_path fp root ∈ st.existing →
      _write_index fp root st = (_write_index_path fp root, st)) ∧
    _write_index fp root (_write_index fp root st).2 = _write_index fp root st := by
  constructor
  · intro h
    simp [_write_index, h]
  · by_cases h : _write_index_path fp root ∈ st.existing
    · simp [_write_index, h]
    · simp only [_write_index, h, if_false]
      have h2 : _write_index_path fp root ∈ st.existing ++ [_write_index_path fp root] := by
        simp
      simp [h2]

/-- C5 witness: on a state already holding the index for `/d/a.grib` the call
is a pure cache hit, and a repeated call on a fresh state is a no-op. -/
theorem ensure_index_idempotent_witness :
    _write_index "/d/a.grib" none ⟨["/d/a.grib.index.json"], [], [], []⟩ =
      ("/d/a.grib.index.json", ⟨["/d/a.grib.index.json"], [], [], []⟩) ∧
    _write_index "/d/b.grib" none (_write_index "/d/b.grib" none ⟨[], [], [], []⟩).2 =
      _write_index "/d/b.grib" none ⟨[], [], [], []⟩ := by
  constructor
  · have h := (ensure_index_idempotent "/d/a.grib" none
      ⟨["/d/a.grib.index.json"], [], [], []⟩).1 (by decide)
    rw [h]
    decide
  · exact (ensure_index_idempotent "/d/b.grib" none ⟨[], [], [], []⟩).2

/-- C7: with `index_root = /alt` and source file `/data/a/b.grib` the computed
index path is `/alt/data/a/b.grib.index.json`: the parent's single leading
separator is stripped before re-rooting and `.index.json` is appended to the
file name.  The first conjunct states this for the returned path of
`_write_index` on every filesystem state. -/
theorem index_path_rerooting :
    (∀ st : FSState,
      (_write_index "/data/a/b.grib" (some "/alt") st).1 = "/alt/data/a/b.grib.index.json") ∧
    _write_index_path "/data/a/b.grib" (some "/alt") = "/alt/data/a/b.grib.index.json" := by
  constructor
  · intro st
    by_cases h : _write_index_path "/data/a/b.grib" (some "/alt") ∈ st.existing <;>
      simp [_write_index, h] <;> decide
  · decide

/-- C10: the re-rooting drops the first character of the parent's string form
unconditionally, so a relative source path `data/a/b.grib` loses the `d` and
is re-rooted under `/idx/ata/a/`, not `/idx/data/a/`. -/
theorem relative_path_char_dropped :
    _write_index_path "data/a/b.grib" (some "/idx") = "/idx/ata/a/b.grib.index.json" ∧
    _write_index_path "data/a/b.grib" (some "/idx") ≠ "/idx/data/a/b.grib.index.json" := by
  constructor <;> decide

/-- Zero-pad a natural number to two digits (calendar field rendering). -/
def pad2 (n : Nat) : String :=
  if n < 10 then "0" ++ toString n else toString n

/-- Zero-pad a natural number to four digits (year rendering). -/
def pad4 (n : Nat) : String :=
  if n < 10 then "000" ++ toString n
  else if n < 100 then "00" ++ toString n
  else if n < 1000 then "0" ++ toString n
  else toString n

/-- Convert a count of days since 1970-01-01 to a civil `(year, month, day)`
triple (proleptic Gregorian calendar, Hinnant's `civil_from_days`). -/
def civilFromDays (days : Int) : Int × Nat × Nat :=
  let z := days + 719468
  let era := z.ediv 146097
  let doe := (z - era * 146097).toNat
  let yoe := (doe - doe / 1460 + doe / 36524 - doe / 146096) / 365
  let doy := doe - (365 * yoe + yoe / 4 - yoe / 100)
  let mp := (5 * doy + 2) / 153
  let d := doy - (153 * mp + 2) / 5 + 1
  let m := if mp < 10 then mp + 3 else mp - 9
  let y : Int := era * 400 + (yoe : Int) + (if m ≤ 2 then 1 else 0)
  (y, m, d)

/-- `pandas.Timestamp(t).isoformat()` for a whole-second timestamp `t`
(seconds since the Unix epoch): `YYYY-MM-DDTHH:MM:SS`. -/
def isoformat (t : Int) : String :=
  let days := t.ediv 86400
  let sod := (t.emod 86400).toNat
  let ymd := civilFromDays days
  let y := ymd.1
  let ystr := if y < 0 then "-" ++ pad4 (-y).toNat else pad4 y.toNat
  ystr ++ "-" ++ pad2 ymd.2.1 ++ "-" ++ pad2 ymd.2.2 ++ "T" ++
    pad2 (sod / 3600) ++ ":" ++ pad2 (sod % 3600 / 60) ++ ":" ++ pad2 (sod % 60)

/-- `str.replace(c, "")` for a single-character pattern: removes every
occurrence of `c`. -/
def stripChar (c : Char) (s : String) : String :=
  ⟨s.data.filter (fun d => d ≠ c)⟩

/-- The per-analysis-time identifier:
`t_analysis.isoformat().replace(":", "").replace("-", "")`. -/
def analysis_time_identifier (t : Int) : String :=
  stripChar '-' (stripChar ':' (isoformat t))

/-- Ascending arithmetic enumeration `cur, cur+step, ...` while `cur ≤ stop`;
`fuel` bounds the recursion and is chosen large enough to never bind. -/
def date_range_aux (stop step : Int) : Nat → Int → List Int
  | 0, _ => []
  | fuel + 1, cur => if cur ≤ stop then cur :: date_range_aux stop step fuel (cur + step) else []

/-- The list produced by `pd.date_range(start, stop, freq=step)` for a
positive `step`: inclusive bounds, ascending. -/
def pd_range_pos (start stop step : Int) : List Int :=
  date_range_aux stop step ((stop - start).toNat + 1) start

/-- `pd.date_range(start, stop, freq)` (external calendar library): raises
for a zero frequency, ascending inclusive enumeration for a positive one,
descending (from `start` down to `stop`) for a negative one. -/
def pd_date_range (start stop freq : Int) : Except PyError (List Int) :=
  if freq = 0 then .error (.valueError "freq must not be zero")
  else if 0 < freq then .ok (pd_range_pos start stop freq)
  else .ok ((pd_range_pos (-start) (-stop) (-freq)).map (fun t => -t))

/-- C4: the range query `[2020-01-01T00:00, 2020-01-01T06:00, step=3h]`
expands to exactly the three analysis times 00:00, 03:00, 06:00 (inclusive
bounds), and each identifier is the ISO-8601 form with `:` and `-` removed:
`20200101T000000`, `20200101T030000`, `20200101T060000`. -/
theorem range_expansion_deterministic :
    pd_date_range 1577836800 1577858400 10800 =
      .ok [1577836800, 1577847600, 1577858400] ∧
    isoformat 1577836800 = "2020-01-01T00:00:00" ∧
    analysis_time_identifier 1577836800 = "20200101T000000" ∧
    analysis_time_identifier 1577847600 = "20200101T030000" ∧
    analysis_time_identifier 1577858400 = "20200101T060000" := by
  refine ⟨?_, by decide, by decide, by decide, by decide⟩
  decide

/-- Longest common prefix of two component lists. -/
def commonOfTwo : List String → List String → List String
  | a :: as, b :: bs => if a = b then a :: commonOfTwo as bs else []
  | _, _ => []

/-- Longest common prefix of a family of component lists. -/
def commonComponents : List (List String) → List String
  | [] => []
  | [x] => x
  | x :: xs => commonOfTwo x (commonComponents xs)

/-- `os.path.commonpath` on a nonempty list of POSIX paths. -/
def commonpathStr (ps : List String) : String :=
  let comps := commonComponents (ps.map splitSlash)
  if comps ≠ [] ∧ comps.all (fun c => c = "") then "/"
  else joinComponents "/" comps

/-- `os.path.commonpath`, which raises on an empty argument list. -/
def commonpath (ps : List String) : Except PyError String :=
  if ps = [] then .error (.valueError "commonpath() arg is an empty sequence")
  else .ok (commonpathStr ps)

/-- The external `gribscan.grib_magic` merge routine (opaque collaborator):
maps the index-file list and global prefix to a `level_type -> reference`
mapping, here an association list with an opaque reference blob. -/
abbrev Magic := List String → String → List (String × String)

/-- The per-file index-building loop of `_write_zarr_indexes_for_grib_files`
(the `use_multiprocessing` branch yields the same list in the same order). -/
def _write_indices : List String → Option String → FSState → List String × FSState
  | [], _, st => ([], st)
  | fp :: fps, root, st =>
    let r := _write_index fp root st
    let rest := _write_indices fps root r.2
    (r.1 :: rest.1, rest.2)

/-- Body of the `for level_type, ref in refs.items()` loop: write the merged
reference to `{level_type}.{identifier}.zarr.json` beside the first file's
index unless it already exists, and record the artifact path. -/
def zarrStep (identifier parentDir : String)
    (acc : List (String × String) × FSState) (ref : String × String) :
    List (String × String) × FSState :=
  let fp_zarr_json := pathJoin parentDir (ref.1 ++ "." ++ identifier ++ ".zarr.json")
  let st := acc.2
  let st :=
    if fp_zarr_json ∈ st.existing then st
    else
      { st with
        existing := st.existing ++ [fp_zarr_json]
        jsonWrites := st.jsonWrites ++ [(fp_zarr_json, ref.2)] }
  (acc.1 ++ [(ref.1, fp_zarr_json)], st)

/-- `_write_zarr_indexes_for_grib_files`: build or reuse an index per GRIB
file, merge them via the external `grib_magic` routine, and write one zarr
JSON artifact per level type, returning the `level_type -> path` mapping. -/
def _write_zarr_indexes_for_grib_files (magic : Magic) (fps_grib : List String)
    (identifier : String) (fp_grib_indecies_root : Option String) (st : FSState) :
    Except PyError (List (String × String) × FSState) := do
  let wi := _write_indices fps_grib fp_grib_indecies_root st
  let fps_index := wi.1
  let cp ← commonpath (fps_grib.map (fun fp => fp))
  let refs := magic fps_index (cp ++ "/")
  match fps_index with
  | [] => .error .indexError
  | fp0 :: _ =>
    let r := refs.foldl (zarrStep identifier (pathParent fp0)) ([], wi.2)
    pure (r.1, r.2)

/-- The artifact mapping returned by `_write_zarr_indexes_for_grib_files`,
which is independent of the filesystem state. -/
def zarr_paths (magic : Magic) (fps_grib : List String) (identifier : String)
    (root : Option String) : List (String × String) :=
  match fps_grib.map (fun fp => _write_index_path fp root) with
  | [] => []
  | p0 :: ps =>
    (magic (p0 :: ps) (commonpathStr fps_grib ++ "/")).map
      (fun kv => (kv.1, pathJoin (pathParent p0) (kv.1 ++ "." ++ identifier ++ ".zarr.json")))

theorem write_index_fst (fp : String) (root : Option String) (st : FSState) :
    (_write_index fp root st).1 = _write_index_path fp root := by
  unfold _write_index
  by_cases h : _write_index_path fp root ∈ st.existing <;> simp [h]

theorem write_indices_fst (root : Option String) :
    ∀ (fps : List String) (st : FSState),
      (_write_indices fps root st).1 = fps.map (fun fp => _write_index_path fp root) := by
  intro fps
  induction fps with
  | nil => intro st; rfl
  | cons fp fps ih =>
    intro st
    simp [_write_indices, ih, write_index_fst]

theorem zarr_fold_fst (identifier parentDir : String) :
    ∀ (refs : List (String × String)) (acc : List (String × String) × FSState),
      (refs.foldl (zarrStep identifier parentDir) acc).1 =
        acc.1 ++ refs.map
          (fun kv => (kv.1, pathJoin parentDir (kv.1 ++ "." ++ identifier ++ ".zarr.json"))) := by
  intro refs
  induction refs with
  | nil => intro acc; simp
  | cons r refs ih =>
    intro acc
    simp [List.foldl_cons, ih, zarrStep]

theorem write_zarr_ok (magic : Magic) (fps_grib : List String) (identifier : String)
    (root : Option String) (st : FSState) (hne : fps_grib ≠ []) :
    ∃ st', _write_zarr_indexes_for_grib_files magic fps_grib identifier root st =
      .ok (zarr_paths magic fps_grib identifier root, st') := by
  cases fps_grib with
  | nil => exact absurd rfl hne
  | cons a as =>
    refine ⟨((magic ((a :: as).map (fun fp => _write_index_path fp root))
        (commonpathStr (a :: as) ++ "/")).foldl
        (zarrStep identifier (pathParent (_write_index_path a root)))
        ([], (_write_indices (a :: as) root st).2)).2, ?_⟩
    simp only [_write_zarr_indexes_for_grib_files, commonpath, List.map_id',
      write_indices_fst, List.map_cons]
    simp only [List.cons_ne_nil, if_false, ite_false, reduceCtorEq, if_neg, except_bind_ok]
    simp only [zarr_paths, List.map_cons, zarr_fold_fst, List.nil_append]
    rfl

/-- The caller-supplied resolver `fn_source_files`.  A Python attribute can
be absent (`Option.none` outside), or present with value `None`
(`some none`) or a duration (`some (some d)`), which is what the
`getattr` calls in `create_gribscan_indecies` distinguish. -/
structure Resolver where
  name : String
  files : Int → List String
  dt_collection_analysis_timespan : Option (Option Int)
  dt_collection_analysis_interval : Option (Option Int)

/-- Modelled from the spec: `normalise_duration` (from the missing
`gribscan_harmonie.utils`) canonicalizes a duration; on the already-canonical
integral seconds used here it is the identity. -/
def normalise_duration (d : Int) : Int := d

/-- A time query: a single analysis time, or a bounded range with an
optional step (the accepted `datetime`/`slice` shapes). -/
inductive TimeArg where
  | single (t : Int)
  | range (start stop : Int) (step : Option Int)
  deriving DecidableEq, Repr

/-- Modelled from the spec: `normalise_time_argument` (from the missing
`gribscan_harmonie.utils`) canonicalizes the time query and fails on
unrecognized shapes; on the canonical shapes representable in `TimeArg`
it returns its argument. -/
def normalise_time_argument (t : TimeArg) : Except PyError TimeArg := .ok t

/-- Append an artifact path to one level type's list in the
`index_collections` dictionary, preserving key insertion order. -/
def appendToLevel (ics : List (String × List String)) (level : String) (fp : String) :
    List (String × List String) :=
  if ics.any (fun kv => kv.1 = level) then
    ics.map (fun kv => if kv.1 = level then (kv.1, kv.2 ++ [fp]) else kv)
  else ics ++ [(level, [fp])]

/-- The `for t_analysis in ts_analysis` loop of
`_create_gribscan_indecies_for_range_of_analysis_times`: one collection per
analysis time, appending each level type's artifact path. -/
def processTimes (magic : Magic) (fn_source_files : Resolver) (root : Option String) :
    List Int → List (String × List String) → FSState →
    Except PyError (List (String × List String) × FSState)
  | [], ics, st => pure (ics, st)
  | t :: ts, ics, st => do
    let identifier := analysis_time_identifier t
    let fps_grib := fn_source_files.files t
    let r ← _write_zarr_indexes_for_grib_files magic fps_grib identifier root st
    processTimes magic fn_source_files root ts
      (r.1.foldl (fun a kv => appendToLevel a kv.1 kv.2) ics) r.2

/-- The configuration-error message raised when a range query has no step
and the resolver declares no default interval (the two source f-strings are
concatenated without a separating space, as in the source). -/
def missing_step_message (resolver_name : String) : String :=
  "When requesting all forecasts within a range of analysis times (i.e. " ++
  "all forecasts with analysis times within that window) you must either provide" ++
  "a step value in the slice, or set " ++ resolver_name ++ ".dt_collection_analysis_interval"

/-- `_create_gribscan_indecies_for_range_of_analysis_times`: resolve the
effective step, then enumerate analysis times (non-windowed case) or fail
with `NotImplementedError` (windowed case). -/
def _create_gribscan_indecies_for_range_of_analysis_times (magic : Magic)
    (fn_source_files : Resolver) (t_start t_stop : Int) (t_step : Option Int)
    (dt_collection_analysis_interval : Option Int)
    (dt_collection_analysis_timespan : Option Int)
    (root : Option String) (st : FSState) :
    Except PyError (List (String × List String) × FSState) := do
  let dt_analysis_interval ←
    match t_step with
    | none =>
      match dt_collection_analysis_interval with
      | some d => pure d
      | none => Except.error (.exception (missing_step_message fn_source_files.name))
    | some d => pure d
  match dt_collection_analysis_timespan with
  | none => do
    let ts_analysis ← pd_date_range t_start t_stop dt_analysis_interval
    processTimes magic fn_source_files root ts_analysis [] st
  | some _ => .error .notImplementedError

/-- `create_gribscan_indecies`: read the two resolver attributes (the
timespan lookup has no `getattr` default), normalise the time argument and
dispatch on its shape. -/
def create_gribscan_indecies (magic : Magic) (t_analysis : TimeArg)
    (fn_source_files : Resolver) (root : Option String) (st : FSState) :
    Except PyError (List (String × List String) × FSState) := do
  let raw_timespan ←
    match fn_source_files.dt_collection_analysis_timespan with
    | none => Except.error (.attributeError "dt_collection_analysis_timespan")
    | some v => pure v
  let dt_collection_analysis_timespan := raw_timespan.map normalise_duration
  let dt_collection_analysis_interval :=
    (fn_source_files.dt_collection_analysis_interval.getD none).map normalise_duration
  let t_analysis ← normalise_time_argument t_analysis
  match t_analysis with
  | .single t => do
    let fps_grib := fn_source_files.files t
    let identifier := analysis_time_identifier t
    let r ← _write_zarr_indexes_for_grib_files magic fps_grib identifier root st
    pure (r.1.map (fun kv => (kv.1, [kv.2])), r.2)
  | .range s e stp =>
    _create_gribscan_indecies_for_range_of_analysis_times magic fn_source_files s e stp
      dt_collection_analysis_interval dt_collection_analysis_timespan root st

/-- C2: a range query whose slice has no step, with no resolver-declared
default interval, makes the range enumeration fail with the configuration
error (a plain `Exception` carrying the message above) before any index
collection is produced, whatever the other arguments — it never guesses a
default step. -/
theorem missing_step_raises_configuration_error (magic : Magic)
    (fn_source_files : Resolver) (t_start t_stop : Int)
    (dt_collection_analysis_timespan : Option Int) (root : Option String) (st : FSState) :
    _create_gribscan_indecies_for_range_of_analysis_times magic fn_source_files
      t_start t_stop none none dt_collection_analysis_timespan root st =
      .error (.exception (missing_step_message fn_source_files.name)) := rfl

/-- C3 (code bug): `create_gribscan_indecies` reads
`dt_collection_analysis_timespan` with a default-less `getattr`, so a
resolver declaring neither optional attribute fails with `AttributeError`
instead of treating the attribute as unset. -/
theorem absent_timespan_attribute_raises (magic : Magic) (t_analysis : TimeArg)
    (name : String) (files : Int → List String) (root : Option String) (st : FSState) :
    create_gribscan_indecies magic t_analysis ⟨name, files, none, none⟩ root st =
      .error (.attributeError "dt_collection_analysis_timespan") := rfl

/-- C9 counterexample: with a resolver that declares a non-`None`
analysis-timespan but a step-less query and no default interval, the range
enumeration fails with the configuration `Exception`, not with
`NotImplementedError`. -/
theorem windowed_claim_counterexample :
    _create_gribscan_indecies_for_range_of_analysis_times (fun _ _ => [])
        ⟨"fn_source_files", fun _ => [], some (some 3600), none⟩ 0 3600 none none
        (some 3600) none ⟨[], [], [], []⟩ =
      .error (.exception (missing_step_message "fn_source_files")) ∧
    _create_gribscan_indecies_for_range_of_analysis_times (fun _ _ => [])
        ⟨"fn_source_files", fun _ => [], some (some 3600), none⟩ 0 3600 none none
        (some 3600) none ⟨[], [], [], []⟩ ≠
      .error .notImplementedError := by
  constructor
  · rfl
  · intro h
    exact absurd (Except.error.inj h) (by decide)

/-- C9 (amended): whenever the effective step is resolvable — the slice has
an explicit step or the resolver declares a default interval — a non-`None`
analysis-timespan makes the range enumeration fail with
`NotImplementedError` before producing any index collection. -/
theorem windowed_raises_not_implemented (magic : Magic) (fn_source_files : Resolver)
    (t_start t_stop : Int) (t_step : Option Int)
    (dt_collection_analysis_interval : Option Int) (span : Int)
    (root : Option String) (st : FSState)
    (h : t_step.isSome ∨ dt_collection_analysis_interval.isSome) :
    _create_gribscan_indecies_for_range_of_analysis_times magic fn_source_files
      t_start t_stop t_step dt_collection_analysis_interval (some span) root st =
      .error .notImplementedError := by
  cases t_step with
  | some d => rfl
  | none =>
    cases dt_collection_analysis_interval with
    | some d => rfl
    | none => simp at h

/-- C9 witness: a concrete windowed request with an explicit step fails with
`NotImplementedError`. -/
theorem windowed_raises_not_implemented_witness :
    _create_gribscan_indecies_for_range_of_analysis_times (fun _ _ => [])
        ⟨"fn_source_files", fun _ => ["/d/a.grib"], some (some 7200), none⟩ 0 7200
        (some 3600) none (some 7200) none ⟨[], [], [], []⟩ =
      .error .notImplementedError :=
  windowed_raises_not_implemented (fun _ _ => [])
    ⟨"fn_source_files", fun _ => ["/d/a.grib"], some (some 7200), none⟩ 0 7200
    (some 3600) none 7200 none ⟨[], [], [], []⟩ (by decide)

/-- An opened xarray dataset view, reduced to what the loader inspects:
the name of its (sole) time dimension, the time coordinate values, its
scalar coordinates, and an opaque payload identifying its data. -/
structure Dataset where
  time_name : String
  times : List Int
  coords : List (String × Int)
  payload : String
  deriving DecidableEq, Repr

/-- `ds.time.values`: fails with `AttributeError` when the dataset has no
`time` coordinate. -/
def Dataset.timeValues (ds : Dataset) : Except PyError (List Int) :=
  if ds.time_name = "time" then pure ds.times else .error (.attributeError "time")

/-- `ds.rename(dict(time="valid_time"))`: fails when there is no `time`
dimension to rename. -/
def Dataset.renameTimeToValid (ds : Dataset) : Except PyError Dataset :=
  if ds.time_name = "time" then pure { ds with time_name := "valid_time" }
  else .error (.valueError "cannot rename time")

/-- One iteration of the loader's overlap branch: take the first time value
as the analysis time, rename `time` to `valid_time`, and attach the analysis
time as a new scalar coordinate. -/
def to_valid_time (ds : Dataset) : Except PyError Dataset := do
  let tvals ← ds.timeValues
  match tvals with
  | [] => .error .indexError
  | t0 :: _ => do
    let ds ← ds.renameTimeToValid
    pure { ds with coords := ds.coords ++ [("analysis_time", t0)] }

/-- The transformed dataset of the overlap branch, as a pure view. -/
def valid_time_view (ds : Dataset) : Dataset :=
  { ds with
    time_name := "valid_time"
    coords := ds.coords ++ [("analysis_time", ds.times.headD 0)] }

/-- The loader's return value: a single dataset passed through, or the
result of `xr.concat` along a named dimension. -/
inductive LoadResult where
  | single (ds : Dataset)
  | concatenated (dim : String) (dss : List Dataset)
  deriving DecidableEq, Repr

/-- Lines 120-138 of `load.py`: single-dataset passthrough, otherwise pick
the concatenation dimension from the overlap of the first two datasets'
time coordinates. -/
def combine_datasets : List Dataset → Except PyError LoadResult
  | [ds] => pure (.single ds)
  | [] => .error .indexError
  | d0 :: d1 :: rest => do
    let t0 ← d0.timeValues
    let t1 ← d1.timeValues
    if 1 < (t0.dedup.filter (fun x => x ∈ t1)).length then do
      let dss ← (d0 :: d1 :: rest).mapM to_valid_time
      pure (.concatenated "analysis_time" dss)
    else
      pure (.concatenated "time" (d0 :: d1 :: rest))

/-- `harmonie_loader` (the closure returned by `create_loader`): build the
index collections, look up the requested level type, open every artifact as
a dataset and combine. `openZarr` stands for `xr.open_zarr(...)` on the
`reference::`-prefixed artifact path. -/
def harmonie_loader (magic : Magic) (openZarr : String → Dataset)
    (fn_source_files : Resolver) (root : Option String)
    (t_analysis : TimeArg) (level_type : String) (st : FSState) :
    Except PyError (LoadResult × FSState) := do
  let t_analysis ← normalise_time_argument t_analysis
  let r ← create_gribscan_indecies magic t_analysis fn_source_files root st
  let index_collections := r.1
  match index_collections.find? (fun kv => kv.1 = level_type) with
  | none =>
    .error (.valueError
      ("Level type " ++ level_type ++ " not found in parsed GRIB files. " ++
       "The following level types are available: " ++
       joinComponents ", " (index_collections.map (fun kv => kv.1))))
  | some kv => do
    let datasets := kv.2.map (fun fp => openZarr ("reference::" ++ fp))
    let ds_all ← combine_datasets datasets
    pure (ds_all, r.2)

theorem to_valid_time_ok (ds : Dataset) (hname : ds.time_name = "time")
    (hne : ds.times ≠ []) : to_valid_time ds = .ok (valid_time_view ds) := by
  cases h : ds.times with
  | nil => exact absurd h hne
  | cons t0 ts =>
    simp [to_valid_time, Dataset.timeValues, Dataset.renameTimeToValid, hname, h,
      valid_time_view]

theorem mapM_to_valid_time (dss : List Dataset)
    (hall : ∀ ds ∈ dss, ds.time_name = "time" ∧ ds.times ≠ []) :
    dss.mapM to_valid_time = .ok (dss.map valid_time_view) := by
  induction dss with
  | nil => rfl
  | cons d ds ih =>
    have hd := hall d (List.mem_cons_self d ds)
    rw [List.mapM_cons, to_valid_time_ok d hd.1 hd.2,
      ih (fun x hx => hall x (List.mem_cons_of_mem d hx))]
    rfl

/-- C8: when the requested level type is absent from the built index
collections, the loader fails with a `ValueError` whose message lists the
available level types. -/
theorem absent_level_type_raises (magic : Magic) (openZarr : String → Dataset)
    (fn_source_files : Resolver) (root : Option String) (t_analysis : TimeArg)
    (level_type : String) (st : FSState)
    (ics : List (String × List String)) (st' : FSState)
    (hcreate : create_gribscan_indecies magic t_analysis fn_source_files root st =
      .ok (ics, st'))
    (habsent : ics.find? (fun kv => kv.1 = level_type) = none) :
    harmonie_loader magic openZarr fn_source_files root t_analysis level_type st =
      .error (.valueError
        ("Level type " ++ level_type ++ " not found in parsed GRIB files. " ++
         "The following level types are available: " ++
         joinComponents ", " (ics.map (fun kv => kv.1)))) := by
  simp [harmonie_loader, normalise_time_argument, hcreate, habsent]

/-- C1: whenever the loader's artifact list opens to more than one dataset,
the concatenation dimension depends only on the first two datasets' time
overlap: more than one shared timestamp concatenates the `valid_time`-renamed
datasets (analysis time attached as a scalar coordinate) along a new
`analysis_time` dimension, otherwise the untouched datasets are concatenated
along the existing `time` dimension. -/
theorem concat_dimension_choice (magic : Magic) (openZarr : String → Dataset)
    (fn_source_files : Resolver) (root : Option String) (t_analysis : TimeArg)
    (level_type : String) (st : FSState)
    (ics : List (String × List String)) (st' : FSState) (fps : List String)
    (d0 d1 : Dataset) (rest : List Dataset)
    (hcreate : create_gribscan_indecies magic t_analysis fn_source_files root st =
      .ok (ics, st'))
    (hfind : ics.find? (fun kv => kv.1 = level_type) = some (level_type, fps))
    (hopen : fps.map (fun fp => openZarr ("reference::" ++ fp)) = d0 :: d1 :: rest)
    (hall : ∀ ds ∈ d0 :: d1 :: rest, ds.time_name = "time" ∧ ds.times ≠ []) :
    (1 < (d0.times.dedup.filter (fun x => x ∈ d1.times)).length →
      harmonie_loader magic openZarr fn_source_files root t_analysis level_type st =
        .ok (.concatenated "analysis_time" ((d0 :: d1 :: rest).map valid_time_view), st')) ∧
    ((d0.times.dedup.filter (fun x => x ∈ d1.times)).length ≤ 1 →
      harmonie_loader magic openZarr fn_source_files root t_analysis level_type st =
        .ok (.concatenated "time" (d0 :: d1 :: rest), st')) := by
  have h0 := hall d0 (by simp)
  have h1 := hall d1 (by simp)
  constructor
  · intro hover
    simp only [harmonie_loader, normalise_time_argument, hcreate, hfind, except_bind_ok,
      hopen, combine_datasets, Dataset.timeValues, h0.1, h1.1, if_true, reduceIte,
      mapM_to_valid_time _ hall, except_pure_def]
    rw [if_pos hover]
    rfl
  · intro hover
    simp only [harmonie_loader, normalise_time_argument, hcreate, hfind, except_bind_ok,
      hopen, combine_datasets, Dataset.timeValues, h0.1, h1.1, if_true, reduceIte,
      except_pure_def]
    rw [if_neg (not_lt.mpr hover)]
    rfl

/-- C8 witness: asking for level type `pl` when only `ml` was parsed fails
with the enumerating `ValueError`. -/
theorem absent_level_type_raises_witness :
    harmonie_loader (fun _ _ => [("ml", "r")]) (fun _ => ⟨"time", [], [], "x"⟩)
        ⟨"fn", fun _ => ["/d/a.grib"], some none, none⟩ none (.single 0) "pl"
        ⟨[], [], [], []⟩ =
      .error (.valueError
        ("Level type pl not found in parsed GRIB files. " ++
         "The following level types are available: ml")) := by
  have h := absent_level_type_raises (fun _ _ => [("ml", "r")])
    (fun _ => ⟨"time", [], [], "x"⟩) ⟨"fn", fun _ => ["/d/a.grib"], some none, none⟩
    none (.single 0) "pl" ⟨[], [], [], []⟩
    [("ml", ["/d/ml.19700101T000000.zarr.json"])]
    ⟨["/d/a.grib.index.json", "/d/ml.19700101T000000.zarr.json"],
      ["/d/a.grib.index.json"], ["/d"], [("/d/ml.19700101T000000.zarr.json", "r")]⟩
    (by decide) (by decide)
  rw [h]
  decide

/-- C1 witness: a two-analysis-time range whose two opened datasets share the
time coordinate `[1, 2]` concatenates along a new `analysis_time` dimension
with `time` renamed to `valid_time` and the first time value attached. -/
theorem concat_dimension_choice_witness :
    harmonie_loader (fun _ _ => [("ml", "r")]) (fun _ => ⟨"time", [1, 2], [], "p"⟩)
        ⟨"fn", fun _ => ["/d/a.grib"], some none, none⟩ none (.range 0 60 (some 60)) "ml"
        ⟨[], [], [], []⟩ =
      .ok (.concatenated "analysis_time"
            [⟨"valid_time", [1, 2], [("analysis_time", 1)], "p"⟩,
             ⟨"valid_time", [1, 2], [("analysis_time", 1)], "p"⟩],
          ⟨["/d/a.grib.index.json", "/d/ml.19700101T000000.zarr.json",
            "/d/ml.19700101T000100.zarr.json"],
            ["/d/a.grib.index.json"], ["/d"],
            [("/d/ml.19700101T000000.zarr.json", "r"),
             ("/d/ml.19700101T000100.zarr.json", "r")]⟩) := by
  have h := (concat_dimension_choice (fun _ _ => [("ml", "r")])
    (fun _ => ⟨"time", [1, 2], [], "p"⟩)
    ⟨"fn", fun _ => ["/d/a.grib"], some none, none⟩ none (.range 0 60 (some 60)) "ml"
    ⟨[], [], [], []⟩
    [("ml", ["/d/ml.19700101T000000.zarr.json", "/d/ml.19700101T000100.zarr.json"])]
    ⟨["/d/a.grib.index.json", "/d/ml.19700101T000000.zarr.json",
      "/d/ml.19700101T000100.zarr.json"],
      ["/d/a.grib.index.json"], ["/d"],
      [("/d/ml.19700101T000000.zarr.json", "r"),
       ("/d/ml.19700101T000100.zarr.json", "r")]⟩
    ["/d/ml.19700101T000000.zarr.json", "/d/ml.19700101T000100.zarr.json"]
    ⟨"time", [1, 2], [], "p"⟩ ⟨"time", [1, 2], [], "p"⟩ []
    (by decide) (by decide) (by decide) (by decide)).1 (by decide)
  rw [h]
  decide

/-- The artifact mapping produced for one analysis time of a range call. -/
def zarr_paths_at (magic : Magic) (fn_source_files : Resolver) (root : Option String)
    (t : Int) : List (String × String) :=
  zarr_paths magic (fn_source_files.files t) (analysis_time_identifier t) root

/-- Dictionary lookup in the accumulated `index_collections` mapping. -/
def ics_lookup (ics : List (String × List String)) (L : String) : Option (List String) :=
  (ics.find? (fun kv => kv.1 = L)).map (fun kv => kv.2)

/-- The per-level-type artifact sequence of a range call: for each analysis
time, in input order, the artifact of level type `L` when that time's
collection has one. -/
def level_series (magic : Magic) (fn_source_files : Resolver) (root : Option String)
    (ts : List Int) (L : String) : List String :=
  ts.filterMap (fun t =>
    ((zarr_paths_at magic fn_source_files root t).find? (fun kv => kv.1 = L)).map
      (fun kv => kv.2))

/-- Value-level effect of one analysis time of the enumeration loop on the
accumulated collections. -/
def fold_collection (magic : Magic) (fn_source_files : Resolver) (root : Option String)
    (acc : List (String × List String)) (t : Int) : List (String × List String) :=
  (zarr_paths_at magic fn_source_files root t).foldl
    (fun a kv => appendToLevel a kv.1 kv.2) acc

/-- The final `index_collections` mapping of a non-windowed range call. -/
def range_collections (magic : Magic) (fn_source_files : Resolver) (root : Option String)
    (ts : List Int) : List (String × List String) :=
  ts.foldl (fold_collection magic fn_source_files root) []

theorem mem_date_range_aux (stop step : Int) (hstep : 0 < step) :
    ∀ (n : Nat) (cur x : Int), x ∈ date_range_aux stop step n cur → cur ≤ x := by
  intro n
  induction n with
  | zero => intro cur x h; simp [date_range_aux] at h
  | succ n ih =>
    intro cur x h
    unfold date_range_aux at h
    by_cases hc : cur ≤ stop
    · rw [if_pos hc] at h
      rcases List.mem_cons.mp h with h | h
      · omega
      · have := ih (cur + step) x h
        omega
    · rw [if_neg hc] at h
      simp at h

theorem sorted_date_range_aux (stop step : Int) (hstep : 0 < step) :
    ∀ (n : Nat) (cur : Int), List.Sorted (· < ·) (date_range_aux stop step n cur) := by
  intro n
  induction n with
  | zero => intro cur; simp [date_range_aux]
  | succ n ih =>
    intro cur
    unfold date_range_aux
    by_cases hc : cur ≤ stop
    · rw [if_pos hc, List.sorted_cons]
      refine ⟨fun b hb => ?_, ih (cur + step)⟩
      have := mem_date_range_aux stop step hstep n (cur + step) b hb
      omega
    · rw [if_neg hc]
      simp

theorem sorted_pd_range_pos (start stop step : Int) (hstep : 0 < step) :
    List.Sorted (· < ·) (pd_range_pos start stop step) :=
  sorted_date_range_aux stop step hstep _ start

theorem lookup_map_update (lvl fp L : String) :
    ∀ ics : List (String × List String),
      ics_lookup (ics.map (fun kv => if kv.1 = lvl then (kv.1, kv.2 ++ [fp]) else kv)) L =
        if L = lvl then (ics_lookup ics L).map (fun l => l ++ [fp])
        else ics_lookup ics L := by
  intro ics
  induction ics with
  | nil => by_cases h : L = lvl <;> simp [ics_lookup, h]
  | cons kv ics ih =>
    have hupd1 : ((if kv.1 = lvl then (kv.1, kv.2 ++ [fp]) else kv) :
        String × List String).1 = kv.1 := by
      by_cases h : kv.1 = lvl <;> simp [h]
    by_cases hk : kv.1 = L
    · unfold ics_lookup
      rw [List.map_cons,
        List.find?_cons_of_pos _ (by simp only [hupd1, decide_eq_true_eq]; exact hk),
        List.find?_cons_of_pos _ (by simp [hk])]
      by_cases hl : kv.1 = lvl
      · rw [if_pos (hk.symm.trans hl)]
        simp [hl]
      · rw [if_neg (fun h => hl (hk.trans h))]
        simp [hl]
    · unfold ics_lookup at ih ⊢
      rw [List.map_cons,
        List.find?_cons_of_neg _ (by simp only [hupd1, decide_eq_true_eq]; exact hk),
        List.find?_cons_of_neg _ (by simp [hk])]
      exact ih

theorem lookup_snoc (ics : List (String × List String)) (lvl fp L : String)
    (habs : ics.find? (fun kv => kv.1 = lvl) = none) :
    ics_lookup (ics ++ [(lvl, [fp])]) L =
      if L = lvl then some ((ics_lookup ics L).getD [] ++ [fp])
      else ics_lookup ics L := by
  unfold ics_lookup
  rw [List.find?_append]
  by_cases hL : L = lvl
  · subst hL
    rw [habs]
    simp
  · have hone : ([((lvl, [fp]))] : List (String × List String)).find?
        (fun kv => kv.1 = L) = none := by
      rw [List.find?_eq_none]
      intro x hx
      rw [List.mem_singleton] at hx
      subst hx
      simp only [decide_eq_true_eq]
      exact fun h => hL h.symm
    rw [hone, if_neg hL]
    cases h : ics.find? (fun kv => kv.1 = L) <;> simp

theorem lookup_appendToLevel (ics : List (String × List String)) (lvl fp L : String) :
    ics_lookup (appendToLevel ics lvl fp) L =
      if L = lvl then some ((ics_lookup ics L).getD [] ++ [fp])
      else ics_lookup ics L := by
  unfold appendToLevel
  by_cases hany : ics.any (fun kv => kv.1 = lvl)
  · rw [if_pos hany, lookup_map_update]
    by_cases hL : L = lvl
    · rw [if_pos hL, if_pos hL]
      obtain ⟨kv, hkv, hkv1⟩ := List.any_eq_true.mp hany
      have hsome : (ics.find? (fun kv => kv.1 = L)).isSome := by
        rw [List.find?_isSome]
        exact ⟨kv, hkv, by simp_all⟩
      unfold ics_lookup
      cases h : ics.find? (fun kv => kv.1 = L) with
      | none => rw [h] at hsome; simp at hsome
      | some kv' => simp
    · rw [if_neg hL, if_neg hL]
  · rw [if_neg hany]
    have habs : ics.find? (fun kv => kv.1 = lvl) = none := by
      rw [List.find?_eq_none]
      intro x hx hpx
      exact hany (List.any_eq_true.mpr ⟨x, hx, hpx⟩)
    exact lookup_snoc ics lvl fp L habs

theorem lookup_pairs_fold (L : String) :
    ∀ (pairs : List (String × String)) (ics : List (String × List String)),
      (pairs.map (fun kv => kv.1)).Nodup →
      ics_lookup (pairs.foldl (fun a kv => appendToLevel a kv.1 kv.2) ics) L =
        (match pairs.find? (fun kv => kv.1 = L) with
          | some kv => some ((ics_lookup ics L).getD [] ++ [kv.2])
          | none => ics_lookup ics L) := by
  intro pairs
  induction pairs with
  | nil => intro ics _; rfl
  | cons kv pairs ih =>
    intro ics hnd
    rw [List.foldl_cons, ih _ (List.nodup_cons.mp (by simpa using hnd)).2]
    have hkv : kv.1 ∉ pairs.map (fun p => p.1) := (List.nodup_cons.mp (by simpa using hnd)).1
    by_cases hL : kv.1 = L
    · subst hL
      have hfind : pairs.find? (fun p => p.1 = kv.1) = none := by
        rw [List.find?_eq_none]
        intro x hx hpx
        exact hkv (by
          simp only [decide_eq_true_eq] at hpx
          exact hpx ▸ List.mem_map_of_mem (fun p => p.1) hx)
      rw [hfind, List.find?_cons_of_pos _ (by simp), lookup_appendToLevel]
      simp
    · rw [List.find?_cons_of_neg _ (by simpa using hL)]
      have hlk : ics_lookup (appendToLevel ics kv.1 kv.2) L = ics_lookup ics L := by
        rw [lookup_appendToLevel, if_neg (fun h => hL h.symm)]
      rw [hlk]

theorem zarr_paths_keys_nodup (magic : Magic)
    (hnd : ∀ fps pre, ((magic fps pre).map (fun kv => kv.1)).Nodup)
    (fps : List String) (identifier : String) (root : Option String) :
    ((zarr_paths magic fps identifier root).map (fun kv => kv.1)).Nodup := by
  unfold zarr_paths
  cases h : fps.map (fun fp => _write_index_path fp root) with
  | nil => simp
  | cons p0 ps =>
    simpa [List.map_map, Function.comp] using hnd (p0 :: ps) (commonpathStr fps ++ "/")

theorem lookup_fold_times (magic : Magic) (fn_source_files : Resolver)
    (root : Option String) (L : String)
    (hnd : ∀ fps pre, ((magic fps pre).map (fun kv => kv.1)).Nodup) :
    ∀ (ts : List Int) (ics : List (String × List String)),
      ics_lookup (ts.foldl (fold_collection magic fn_source_files root) ics) L =
        if ics_lookup ics L = none ∧
            level_series magic fn_source_files root ts L = [] then none
        else some ((ics_lookup ics L).getD [] ++
          level_series magic fn_source_files root ts L) := by
  intro ts
  induction ts with
  | nil =>
    intro ics
    cases h : ics_lookup ics L <;> simp [level_series, h]
  | cons t ts ih =>
    intro ics
    rw [List.foldl_cons, ih]
    have hstep := lookup_pairs_fold L (zarr_paths_at magic fn_source_files root t) ics
      (zarr_paths_keys_nodup magic hnd _ _ _)
    cases hf : (zarr_paths_at magic fn_source_files root t).find? (fun kv => kv.1 = L) with
    | some kv =>
      rw [hf] at hstep
      have hser : level_series magic fn_source_files root (t :: ts) L =
          kv.2 :: level_series magic fn_source_files root ts L := by
        simp [level_series, List.filterMap_cons, hf]
      rw [hser]
      have hlk : ics_lookup (fold_collection magic fn_source_files root ics t) L =
          some ((ics_lookup ics L).getD [] ++ [kv.2]) := hstep
      rw [hlk]
      simp only [reduceCtorEq, false_and, if_false, Option.getD_some]
      rw [if_neg (by simp)]
      rw [List.append_assoc]
      rfl
    | none =>
      rw [hf] at hstep
      have hser : level_series magic fn_source_files root (t :: ts) L =
          level_series magic fn_source_files root ts L := by
        simp [level_series, List.filterMap_cons, hf]
      have hlk : ics_lookup (fold_collection magic fn_source_files root ics t) L =
          ics_lookup ics L := hstep
      rw [hser, hlk]

theorem processTimes_ok (magic : Magic) (fn_source_files : Resolver) (root : Option String) :
    ∀ (ts : List Int) (ics : List (String × List String)) (st : FSState),
      (∀ t ∈ ts, fn_source_files.files t ≠ []) →
      ∃ st', processTimes magic fn_source_files root ts ics st =
        .ok (ts.foldl (fold_collection magic fn_source_files root) ics, st') := by
  intro ts
  induction ts with
  | nil => intro ics st _; exact ⟨st, rfl⟩
  | cons t ts ih =>
    intro ics st hne
    obtain ⟨st1, h1⟩ := write_zarr_ok magic (fn_source_files.files t)
      (analysis_time_identifier t) root st (hne t (List.mem_cons_self t ts))
    obtain ⟨st', h2⟩ := ih (fold_collection magic fn_source_files root ics t) st1
      (fun x hx => hne x (List.mem_cons_of_mem t hx))
    refine ⟨st', ?_⟩
    rw [List.foldl_cons]
    simp only [processTimes, h1, except_bind_ok]
    exact h2

theorem filterMap_eq_filter_map_getD {α β : Type} (f : α → Option β) (d : β) :
    ∀ l : List α, l.filterMap f =
      (l.filter (fun a => (f a).isSome)).map (fun a => (f a).getD d) := by
  intro l
  induction l with
  | nil => rfl
  | cons a l ih =>
    cases h : f a <;> simp [List.filterMap_cons, List.filter_cons, h, ih]

/-- C6: for a non-windowed range call with positive effective step, the
analysis times are enumerated in strictly ascending order; the returned
`index_collections` value is the order-preserving fold of the per-time
collections; each level type's entry is exactly the sequence of that level
type's artifacts in analysis-time order; and the analysis times carrying a
given level type form a strictly ascending subsequence. -/
theorem range_enumeration_order (magic : Magic) (fn_source_files : Resolver)
    (t_start t_stop dt : Int) (iv : Option Int) (root : Option String) (st : FSState)
    (hdt : 0 < dt)
    (hfiles : ∀ t ∈ pd_range_pos t_start t_stop dt, fn_source_files.files t ≠ [])
    (hnd : ∀ fps pre, ((magic fps pre).map (fun kv => kv.1)).Nodup) :
    List.Sorted (· < ·) (pd_range_pos t_start t_stop dt) ∧
    Except.map Prod.fst
      (_create_gribscan_indecies_for_range_of_analysis_times magic fn_source_files
        t_start t_stop (some dt) iv none root st) =
      .ok (range_collections magic fn_source_files root (pd_range_pos t_start t_stop dt)) ∧
    (∀ L, ics_lookup
        (range_collections magic fn_source_files root (pd_range_pos t_start t_stop dt)) L =
      if level_series magic fn_source_files root (pd_range_pos t_start t_stop dt) L = []
      then none
      else some (level_series magic fn_source_files root (pd_range_pos t_start t_stop dt) L)) ∧
    (∀ L, level_series magic fn_source_files root (pd_range_pos t_start t_stop dt) L =
        ((pd_range_pos t_start t_stop dt).filter (fun t =>
          ((zarr_paths_at magic fn_source_files root t).find?
            (fun kv => kv.1 = L)).isSome)).map (fun t =>
          (((zarr_paths_at magic fn_source_files root t).find?
            (fun kv => kv.1 = L)).map (fun kv => kv.2)).getD "") ∧
      List.Sorted (· < ·)
        ((pd_range_pos t_start t_stop dt).filter (fun t =>
          ((zarr_paths_at magic fn_source_files root t).find?
            (fun kv => kv.1 = L)).isSome))) := by
  have hsorted := sorted_pd_range_pos t_start t_stop dt hdt
  refine ⟨hsorted, ?_, ?_, ?_⟩
  · obtain ⟨st', hpt⟩ := processTimes_ok magic fn_source_files root
      (pd_range_pos t_start t_stop dt) [] st hfiles
    simp only [_create_gribscan_indecies_for_range_of_analysis_times, pd_date_range,
      if_neg hdt.ne', if_pos hdt, except_bind_ok, except_pure_def, hpt]
    rfl
  · intro L
    have h := lookup_fold_times magic fn_source_files root L hnd
      (pd_range_pos t_start t_stop dt) []
    rw [range_collections, h]
    have hnil : ics_lookup [] L = none := rfl
    rw [hnil]
    by_cases hser : level_series magic fn_source_files root (pd_range_pos t_start t_stop dt) L = []
    · rw [if_pos ⟨rfl, hser⟩, if_pos hser]
    · rw [if_neg (fun hc => hser hc.2), if_neg hser]
      simp
  · intro L
    constructor
    · rw [level_series, filterMap_eq_filter_map_getD
        (fun t => ((zarr_paths_at magic fn_source_files root t).find?
          (fun kv => kv.1 = L)).map (fun kv => kv.2)) "" (pd_range_pos t_start t_stop dt)]
      simp only [Option.isSome_map']
    · exact List.Pairwise.sublist (List.filter_sublist _) hsorted

/-- C6 witness: a concrete two-time range (step one minute) is enumerated in
ascending order with the `ml` artifact list in that same order. -/
theorem range_enumeration_order_witness :
    List.Sorted (· < ·) (pd_range_pos 0 100 60) ∧
    Except.map Prod.fst
      (_create_gribscan_indecies_for_range_of_analysis_times (fun _ _ => [("ml", "r")])
        ⟨"fn", fun _ => ["/d/a.grib"], some none, none⟩ 0 100 (some 60) none none none
        ⟨[], [], [], []⟩) =
      .ok (range_collections (fun _ _ => [("ml", "r")])
        ⟨"fn", fun _ => ["/d/a.grib"], some none, none⟩ none (pd_range_pos 0 100 60)) ∧
    ics_lookup (range_collections (fun _ _ => [("ml", "r")])
        ⟨"fn", fun _ => ["/d/a.grib"], some none, none⟩ none (pd_range_pos 0 100 60)) "ml" =
      if level_series (fun _ _ => [("ml", "r")])
          ⟨"fn", fun _ => ["/d/a.grib"], some none, none⟩ none (pd_range_pos 0 100 60) "ml" = []
      then none
      else some (level_series (fun _ _ => [("ml", "r")])
        ⟨"fn", fun _ => ["/d/a.grib"], some none, none⟩ none (pd_range_pos 0 100 60) "ml") := by
  have h := range_enumeration_order (fun _ _ => [("ml", "r")])
    ⟨"fn", fun _ => ["/d/a.grib"], some none, none⟩ 0 100 60 none none ⟨[], [], [], []⟩
    (by decide) (by decide)
    (fun _ _ => (by decide : (List.map (fun kv : String × String => kv.1)
      [("ml", "r")]).Nodup))
  exact ⟨h.1, h.2.1, h.2.2.1 "ml"⟩

end GribscanHarmonie
